import Mathlib

/-!
# easy_ping: statistics, classification, family selection and report lines

A shallow embedding of `easy_ping.go`.

* Go's `int` is modelled as `Int` wrapped to 64 bits after every arithmetic
  operation (`wrapInt`); integer division by zero is a run-time panic and is
  modelled by `none`.
* Go's `float64` values (`minRTT`, `maxRTT`, `avgRTT`, `latency`) are modelled
  as exact rationals, so the results below are about the arithmetic the code
  writes down, not about rounding.
* `net.DialTimeout`, `time.Now` and the interrupt are the environment: one
  loop iteration of `PingN` receives the error value returned by `Ping` and
  the measured latency as a `Probe`.
* `fmt.Sprintf("%f", x)` is library code and enters as a parameter
  `fmtF : ℚ → String`.
-/

namespace EasyPing

/-! ## Machine integers -/

/-- Two's complement wrap-around of a mathematical integer to Go's 64-bit `int`. -/
def wrapInt (x : Int) : Int :=
  (x + 9223372036854775808) % 18446744073709551616 - 9223372036854775808

/-- Go `a + b` on `int`. -/
def intAdd (a b : Int) : Int := wrapInt (a + b)

/-- Go `a - b` on `int`. -/
def intSub (a b : Int) : Int := wrapInt (a - b)

/-- Go `a / b` on `int`: quotient truncated towards zero, and a run-time panic
(`none`) when the divisor is zero. -/
def intDiv (a b : Int) : Option Int :=
  if b = 0 then none else some (wrapInt (Int.tdiv a b))

/-- Go `strconv.Itoa`: the decimal rendering of an `int`. -/
def Itoa (i : Int) : String := toString i

/-- Go `math.MaxFloat64`, the largest finite `float64`. -/
def MaxFloat64 : ℚ := (2 ^ 53 - 1) * 2 ^ 971

/-- Go `math.MinInt64`. -/
def MinInt64 : Int := -9223372036854775808

/-! ## Errors and `formatResult` -/

/-- The dynamic shapes of a non-nil Go `error` that `formatResult` tells
apart: a `*net.OpError`, carrying the text `err.Err.Error()` of the error it
wraps, and any other error, carrying its own text `err.Error()`. -/
inductive GoError where
  | opError (innerMsg : String)
  | other (msg : String)
  deriving DecidableEq, Repr

/-- Source `formatResult(err error) string`; `none` is the nil error. -/
def formatResult : Option GoError → String
  | none => "success"
  | some (GoError.opError innerMsg) => innerMsg
  | some (GoError.other msg) => msg

/-! ## The package-level statistics -/

/-- The package-level variables `successful`, `failed`, `minRTT`, `maxRTT`,
`avgRTT`. -/
structure Stats where
  successful : Int
  failed : Int
  minRTT : ℚ
  maxRTT : ℚ
  avgRTT : ℚ
  deriving DecidableEq, Repr

/-- The initial values of the package-level variables. -/
def initStats : Stats :=
  { successful := 0
    failed := 0
    minRTT := MaxFloat64
    maxRTT := (MinInt64 : ℚ)
    avgRTT := 0 }

/-- What one loop iteration of `PingN` observes: the error returned by `Ping`
(`none` for nil) and `time.Since(startTime).Seconds() * 1000`. -/
structure Probe where
  err : Option GoError
  latency : ℚ
  deriving DecidableEq, Repr

/-- The counter update of `PingN`: `successful` or `failed` is incremented. -/
def countProbe (s : Stats) (err : Option GoError) : Stats :=
  if formatResult err = "success" then
    { s with successful := intAdd s.successful 1 }
  else
    { s with failed := intAdd s.failed 1 }

/-- The condition of the `if` in `PingN` that selects the counter to increment,
`formatResult(err) == "success"`. -/
def countedReceived (p : Probe) : Bool := decide (formatResult p.err = "success")

/-- The `minRTT`/`maxRTT` update of `PingN`: an `if … else if …`. -/
def trackMinMax (s : Stats) (latency : ℚ) : Stats :=
  if latency < s.minRTT then
    { s with minRTT := latency }
  else if latency > s.maxRTT then
    { s with maxRTT := latency }
  else
    s

/-- The `avgRTT` update of `PingN`. -/
def trackAvg (s : Stats) (latency : ℚ) : Stats :=
  { s with
    avgRTT :=
      (s.avgRTT * ((intSub (intAdd s.failed s.successful) 1 : Int) : ℚ) + latency)
        / ((intAdd s.failed s.successful : Int) : ℚ) }

/-- The statistics update of one loop iteration of `PingN`, in source order. -/
def pingUpdate (s : Stats) (p : Probe) : Stats :=
  trackAvg (trackMinMax (countProbe s p.err) p.latency) p.latency

/-- The sent count `successful + failed` as the code computes it. -/
def sent (s : Stats) : Int := intAdd s.successful s.failed

/-- The loss figure `failed/(successful + failed)` printed before `% loss`,
both in `PingN` and in `statistics`; `none` is the divide-by-zero panic. -/
def lossFigure (s : Stats) : Option Int :=
  intDiv s.failed (intAdd s.successful s.failed)

/-- The string `PingN` sends on the channel; `x` is the `%f` rendering of the
latency. `none` when computing the loss figure panics. -/
def pingOutput (s : Stats) (x : String) : Option String :=
  (lossFigure s).map fun q =>
    "Packets: sent = " ++ Itoa (intAdd s.successful s.failed) ++ ", recieved = " ++
      Itoa s.successful ++ ", Lost = " ++ Itoa s.failed ++ "(" ++
      Itoa q ++ "% loss), Latency: " ++ (x ++ " ms")

/-- One loop iteration of `PingN`: the update, then the output string. -/
def pingIteration (fmtF : ℚ → String) (s : Stats) (p : Probe) : Option (Stats × String) :=
  (pingOutput (pingUpdate s p) (fmtF p.latency)).map fun out => (pingUpdate s p, out)

/-- The first `probes.length` iterations of the loop of `PingN`: the
statistics afterwards and the strings sent on the channel, in order; `none`
when an iteration panics. -/
def PingN (fmtF : ℚ → String) : Stats → List Probe → Option (Stats × List String)
  | s, [] => some (s, [])
  | s, p :: ps =>
    (pingIteration fmtF s p).bind fun r =>
      (PingN fmtF r.1 ps).map fun rest => (rest.1, r.2 :: rest.2)

/-- The statistics after the updates for `probes`, applied in order. -/
def statsAfter (s : Stats) (probes : List Probe) : Stats := probes.foldl pingUpdate s

/-- What a call of `statistics` did: the lines printed, and whether it ended
in a run-time panic. -/
structure Report where
  lines : List String
  panicked : Bool
  deriving DecidableEq, Repr

/-- Source `statistics()`: prints `Statistics:`, then evaluates the packets
line (the division may panic), then the round-trip lines. -/
def statistics (fmtF : ℚ → String) (s : Stats) : Report :=
  match lossFigure s with
  | none => { lines := ["Statistics:"], panicked := true }
  | some q =>
    { lines :=
        ["Statistics:",
         "Packets: sent = " ++ Itoa (intAdd s.successful s.failed) ++ ", recieved = " ++
           Itoa s.successful ++ ", Lost = " ++ Itoa s.failed ++ "(" ++
           Itoa q ++ "% loss),",
         "Approximate round trip times in milli-seconds:",
         "Minimum: " ++ (fmtF s.minRTT ++ " ms Maximum: " ++ fmtF s.maxRTT ++
           " ms, Average: " ++ fmtF s.avgRTT ++ " ms")],
      panicked := false }

/-! ## Address family selection -/

/-- Go `net.IP`, a byte slice. -/
abbrev IP := List (Fin 256)

/-- Go `net.IPv4len`. -/
def IPv4len : Nat := 4

/-- Go `net.IPv6len`. -/
def IPv6len : Nat := 16

/-- The helper `isZeros` of Go's package `net`: every byte is zero. -/
def isZeros (p : List (Fin 256)) : Bool := p.all fun b => b == 0

/-- Go `net.IP.To4` (standard library): the address itself when it is 4 bytes
long, the last four bytes when it is 16 bytes long with ten zero bytes
followed by `0xff 0xff`, and nil (`none`) otherwise. -/
def To4 (ip : IP) : Option IP :=
  if ip.length = IPv4len then some ip
  else if ip.length = IPv6len ∧ isZeros (ip.take 10) = true ∧
      ip[10]? = some 255 ∧ ip[11]? = some 255 then
    some ((ip.drop 12).take 4)
  else none

/-- Go `len` of a possibly nil slice. -/
def sliceLen : Option IP → Nat
  | none => 0
  | some b => b.length

/-- Source `isIPv4`. -/
def isIPv4 (ip : IP) : Bool := sliceLen (To4 ip) == IPv4len

/-- Source `isIPv6`. -/
def isIPv6 (ip : IP) : Bool := ip.length == IPv6len

/-- The family selection in `main`: the value of `params.network` after the
`if isIPv4 … else if isIPv6 …` statement, given its value before. -/
def mainSelectNetwork (network : String) (ip : IP) : String :=
  if isIPv4 ip = true then "ip4:icmp"
  else if isIPv6 ip = true then "ip6:ipv6-icmp"
  else network

/-! ## Vocabulary of the specification -/

/-- The twelve leading bytes of an IPv4-mapped IPv6 address, `::ffff:0:0/96`. -/
def v4InV6Lead : List (Fin 256) := [0, 0, 0, 0, 0, 0, 0, 0, 0, 0, 255, 255]

/-- A 16-byte address in IPv4-mapped form. -/
def IPv4Mapped (ip : IP) : Prop := ip.length = 16 ∧ ip.take 12 = v4InV6Lead

instance (ip : IP) : Decidable (IPv4Mapped ip) := by
  unfold IPv4Mapped; infer_instance

/-- A 4-byte-representable address: 4 bytes long, or 16 bytes long in
IPv4-mapped form. -/
def FourByteRepresentable (ip : IP) : Prop := ip.length = 4 ∨ IPv4Mapped ip

instance (ip : IP) : Decidable (FourByteRepresentable ip) := by
  unfold FourByteRepresentable; infer_instance

/-- A probe that completed without error: `Ping` returned nil. -/
def completedWithoutError (p : Probe) : Bool := p.err.isNone

/-- The texts of the errors of `net.DialTimeout` describe a failure
(`connect: connection refused`, `i/o timeout`, `unknown network …`); none of
them is the text `success`. For a `*net.OpError` the text is that of the
wrapped error, otherwise the error's own. -/
def describesFailure : GoError → Prop
  | GoError.opError innerMsg => innerMsg ≠ "success"
  | GoError.other msg => msg ≠ "success"

instance (e : GoError) : Decidable (describesFailure e) := by
  cases e <;> (unfold describesFailure; infer_instance)

/-- The error values `Ping` returns: nil, or an error of `net.DialTimeout`. -/
def returnedByPing : Option GoError → Prop
  | none => True
  | some e => describesFailure e

instance (err : Option GoError) : Decidable (returnedByPing err) := by
  cases err <;> (unfold returnedByPing; infer_instance)

/-- The latencies recorded by a sequence of probes, in order. -/
def latencies (probes : List Probe) : List ℚ := probes.map Probe.latency

/-- The loss percentage as the specification words it:
`round(lost * 100 / sent)`. -/
def specLossPercent (lost sentCount : Int) : Int :=
  round (((lost : ℚ) * 100) / (sentCount : ℚ))

/-- A successful probe with the given latency in milliseconds. -/
def okProbe (latency : ℚ) : Probe := { err := none, latency := latency }

/-- A failed probe (`*net.OpError` wrapping an i/o timeout) with the given
latency in milliseconds. -/
def timeoutProbe (latency : ℚ) : Probe :=
  { err := some (GoError.opError "i/o timeout"), latency := latency }

/-! ## Arithmetic of the counters -/

theorem wrapInt_eq_self (x : Int) (h0 : 0 ≤ x) (h1 : x < 9223372036854775808) :
    wrapInt x = x := by
  unfold wrapInt; omega

theorem countProbe_counters (s : Stats) (err : Option GoError)
    (h0 : 0 ≤ s.successful) (h1 : 0 ≤ s.failed)
    (h : s.successful + s.failed + 1 < 9223372036854775808) :
    (countProbe s err).successful
        = s.successful + (if formatResult err = "success" then 1 else 0) ∧
      (countProbe s err).failed
        = s.failed + (if formatResult err = "success" then 0 else 1) := by
  unfold countProbe intAdd
  split
  · simp only [add_zero, and_true]
    exact wrapInt_eq_self _ (by omega) (by omega)
  · simp only [add_zero, true_and]
    exact wrapInt_eq_self _ (by omega) (by omega)

theorem pingUpdate_successful (s : Stats) (p : Probe) :
    (pingUpdate s p).successful = (countProbe s p.err).successful := by
  unfold pingUpdate trackAvg trackMinMax
  split
  · rfl
  · split <;> rfl

theorem pingUpdate_failed (s : Stats) (p : Probe) :
    (pingUpdate s p).failed = (countProbe s p.err).failed := by
  unfold pingUpdate trackAvg trackMinMax
  split
  · rfl
  · split <;> rfl

theorem pingUpdate_avgRTT (s : Stats) (p : Probe) :
    (pingUpdate s p).avgRTT =
      (s.avgRTT *
          ((intSub (intAdd (countProbe s p.err).failed (countProbe s p.err).successful) 1 : Int) : ℚ)
          + p.latency)
        / ((intAdd (countProbe s p.err).failed (countProbe s p.err).successful : Int) : ℚ) := by
  have hc : (countProbe s p.err).avgRTT = s.avgRTT := by
    unfold countProbe; split <;> rfl
  unfold pingUpdate trackAvg trackMinMax
  split
  · simp only [hc]
  · split <;> simp only [hc]

/-- Counters after one update, while they stay in the range of `int`. -/
theorem pingUpdate_counters (s : Stats) (p : Probe)
    (h0 : 0 ≤ s.successful) (h1 : 0 ≤ s.failed)
    (h : s.successful + s.failed + 1 < 9223372036854775808) :
    (pingUpdate s p).successful
        = s.successful + (if countedReceived p = true then 1 else 0) ∧
      (pingUpdate s p).failed
        = s.failed + (if countedReceived p = true then 0 else 1) := by
  rw [pingUpdate_successful, pingUpdate_failed]
  simpa [countedReceived] using countProbe_counters s p.err h0 h1 h

theorem statsAfter_counters (probes : List Probe) :
    ∀ s : Stats, 0 ≤ s.successful → 0 ≤ s.failed →
      s.successful + s.failed + (probes.length : Int) < 9223372036854775808 →
      (statsAfter s probes).successful
          = s.successful + (probes.countP countedReceived : Int) ∧
        (statsAfter s probes).failed
          = s.failed + (probes.countP (fun p => !countedReceived p) : Int) := by
  induction probes with
  | nil => intro s _ _ _; simp [statsAfter]
  | cons p ps ih =>
    intro s h0 h1 h
    simp only [List.length_cons, Nat.cast_add, Nat.cast_one] at h
    obtain ⟨hs, hf⟩ := pingUpdate_counters s p h0 h1 (by omega)
    have hstep : statsAfter s (p :: ps) = statsAfter (pingUpdate s p) ps := rfl
    have h0n : 0 ≤ (pingUpdate s p).successful := by rw [hs]; split <;> omega
    have h1n : 0 ≤ (pingUpdate s p).failed := by rw [hf]; split <;> omega
    have hsum : (pingUpdate s p).successful + (pingUpdate s p).failed + (ps.length : Int)
        < 9223372036854775808 := by
      rw [hs, hf]; split <;> omega
    obtain ⟨ihs, ihf⟩ := ih (pingUpdate s p) h0n h1n hsum
    rw [hstep, ihs, ihf, hs, hf]
    by_cases hc : countedReceived p = true
    · simp [List.countP_cons, hc]; omega
    · simp [List.countP_cons, hc]; omega

theorem statsAfter_init_counters (probes : List Probe)
    (hlen : probes.length < 9223372036854775808) :
    (statsAfter initStats probes).successful = (probes.countP countedReceived : Int) ∧
      (statsAfter initStats probes).failed
        = (probes.countP (fun p => !countedReceived p) : Int) := by
  have h := statsAfter_counters probes initStats (by simp [initStats]) (by simp [initStats])
    (by simp only [initStats]; omega)
  simpa [initStats] using h

theorem countP_add_countP_not (probes : List Probe) :
    (probes.countP countedReceived : Int)
        + (probes.countP (fun p => !countedReceived p) : Int) = (probes.length : Int) := by
  have h := List.length_eq_countP_add_countP countedReceived probes
  have h2 : (fun p => !countedReceived p) = (fun a => decide ¬countedReceived a = true) := by
    funext a; cases countedReceived a <;> simp
  rw [h2]
  omega

theorem lossFigure_of_counters (s : Stats) (h0 : 0 ≤ s.successful) (h1 : 0 ≤ s.failed)
    (hpos : 1 ≤ s.successful + s.failed)
    (h : s.successful + s.failed < 9223372036854775808) :
    intAdd s.successful s.failed = s.successful + s.failed ∧
      lossFigure s = some (if s.successful = 0 then 1 else 0) := by
  have hsum : intAdd s.successful s.failed = s.successful + s.failed :=
    wrapInt_eq_self _ (by omega) h
  refine ⟨hsum, ?_⟩
  unfold lossFigure intDiv
  rw [hsum, if_neg (by omega)]
  by_cases hz : s.successful = 0
  · rw [if_pos hz, hz, zero_add, Int.tdiv_self (by omega)]
    rfl
  · rw [if_neg hz, Int.tdiv_eq_zero_of_lt h1 (by omega)]
    rfl

theorem PingN_cons_some (fmtF : ℚ → String) (s s1 s2 : Stats) (p : Probe) (ps : List Probe)
    (out : String) (outs : List String)
    (h1 : pingIteration fmtF s p = some (s1, out))
    (h2 : PingN fmtF s1 ps = some (s2, outs)) :
    PingN fmtF s (p :: ps) = some (s2, out :: outs) := by
  rw [PingN, h1, Option.some_bind, h2]
  rfl

/-- The loop of `PingN` does not panic while the counters stay in the range of
`int`, and its statistics are those of `statsAfter`. -/
theorem PingN_eq_statsAfter (fmtF : ℚ → String) (probes : List Probe) :
    ∀ s : Stats, 0 ≤ s.successful → 0 ≤ s.failed →
      s.successful + s.failed + (probes.length : Int) < 9223372036854775808 →
      ∃ outs : List String,
        PingN fmtF s probes = some (statsAfter s probes, outs) ∧
          outs.length = probes.length := by
  induction probes with
  | nil => intro s _ _ _; exact ⟨[], rfl, rfl⟩
  | cons p ps ih =>
    intro s h0 h1 h
    simp only [List.length_cons, Nat.cast_add, Nat.cast_one] at h
    obtain ⟨hs, hf⟩ := pingUpdate_counters s p h0 h1 (by omega)
    have h0n : 0 ≤ (pingUpdate s p).successful := by rw [hs]; split <;> omega
    have h1n : 0 ≤ (pingUpdate s p).failed := by rw [hf]; split <;> omega
    have hone : (pingUpdate s p).successful + (pingUpdate s p).failed
        = s.successful + s.failed + 1 := by
      rw [hs, hf]; split <;> omega
    obtain ⟨_, hloss⟩ := lossFigure_of_counters (pingUpdate s p) h0n h1n (by omega) (by omega)
    obtain ⟨outs, hrun, hlen⟩ := ih (pingUpdate s p) h0n h1n (by omega)
    have hstep : statsAfter s (p :: ps) = statsAfter (pingUpdate s p) ps := rfl
    obtain ⟨out, hout⟩ : ∃ out, pingIteration fmtF s p = some (pingUpdate s p, out) := by
      unfold pingIteration pingOutput
      rw [hloss]
      exact ⟨_, rfl⟩
    refine ⟨out :: outs, ?_, by simp [hlen]⟩
    rw [hstep]
    exact PingN_cons_some fmtF s _ _ p ps out outs hout hrun

theorem PingN_init (fmtF : ℚ → String) (probes : List Probe)
    (hlen : probes.length < 9223372036854775808) :
    ∃ outs : List String,
      PingN fmtF initStats probes = some (statsAfter initStats probes, outs) ∧
        outs.length = probes.length :=
  PingN_eq_statsAfter fmtF probes initStats (by simp [initStats]) (by simp [initStats])
    (by simp only [initStats]; omega)

theorem statsAfter_snoc (s : Stats) (probes : List Probe) (p : Probe) :
    statsAfter s (probes ++ [p]) = pingUpdate (statsAfter s probes) p := by
  simp [statsAfter, List.foldl_append]

/-- The running mean times the number of probes is the sum of the latencies. -/
theorem statsAfter_avg_mul (probes : List Probe) :
    probes.length < 9223372036854775808 →
      (statsAfter initStats probes).avgRTT * (probes.length : ℚ) = (latencies probes).sum := by
  induction probes using List.reverseRecOn with
  | nil => intro _; simp [statsAfter, latencies]
  | append_singleton ps p ih =>
    intro hlen
    simp only [List.length_append, List.length_singleton] at hlen
    have ih2 := ih (by omega)
    obtain ⟨hs, hf⟩ := statsAfter_init_counters ps (by omega)
    have hsum := countP_add_countP_not ps
    have h0 : 0 ≤ (statsAfter initStats ps).successful := by rw [hs]; omega
    have h1 : 0 ≤ (statsAfter initStats ps).failed := by rw [hf]; omega
    obtain ⟨hcs, hcf⟩ := countProbe_counters (statsAfter initStats ps) p.err h0 h1 (by omega)
    have htot : (countProbe (statsAfter initStats ps) p.err).failed
        + (countProbe (statsAfter initStats ps) p.err).successful = (ps.length : Int) + 1 := by
      rw [hcs, hcf]; split <;> omega
    have hadd : intAdd (countProbe (statsAfter initStats ps) p.err).failed
        (countProbe (statsAfter initStats ps) p.err).successful = (ps.length : Int) + 1 := by
      unfold intAdd; rw [htot]; exact wrapInt_eq_self _ (by omega) (by omega)
    have hsub : intSub ((ps.length : Int) + 1) 1 = (ps.length : Int) := by
      unfold intSub
      rw [add_sub_cancel_right]
      exact wrapInt_eq_self _ (by omega) (by omega)
    rw [statsAfter_snoc, pingUpdate_avgRTT, hadd, hsub]
    have hne : ((ps.length : ℚ) + 1) ≠ 0 := by positivity
    simp only [List.length_append, List.length_singleton, latencies, List.map_append,
      List.map_cons, List.map_nil, List.sum_append, List.sum_cons, List.sum_nil, add_zero]
    push_cast
    rw [div_mul_cancel₀ _ hne]
    simp only [latencies] at ih2
    rw [ih2]

/-- On the errors `Ping` returns, the test of `PingN` holds exactly for nil. -/
theorem countedReceived_iff_nil (p : Probe) (h : returnedByPing p.err) :
    countedReceived p = true ↔ p.err = none := by
  unfold countedReceived
  rw [decide_eq_true_iff]
  rcases hp : p.err with _ | ⟨m⟩ | ⟨m⟩
  · simp [formatResult]
  · rw [hp] at h
    simpa [formatResult] using h
  · rw [hp] at h
    simpa [formatResult] using h

/-! ## Family selection -/

theorem to4_test_iff (ip : IP) (h : ip.length = 16) :
    (isZeros (ip.take 10) = true ∧ ip[10]? = some 255 ∧ ip[11]? = some 255)
      ↔ ip.take 12 = v4InV6Lead := by
  rcases ip with _ | ⟨a0, ip⟩
  · simp at h
  rcases ip with _ | ⟨a1, ip⟩
  · simp at h
  rcases ip with _ | ⟨a2, ip⟩
  · simp at h
  rcases ip with _ | ⟨a3, ip⟩
  · simp at h
  rcases ip with _ | ⟨a4, ip⟩
  · simp at h
  rcases ip with _ | ⟨a5, ip⟩
  · simp at h
  rcases ip with _ | ⟨a6, ip⟩
  · simp at h
  rcases ip with _ | ⟨a7, ip⟩
  · simp at h
  rcases ip with _ | ⟨a8, ip⟩
  · simp at h
  rcases ip with _ | ⟨a9, ip⟩
  · simp at h
  rcases ip with _ | ⟨a10, ip⟩
  · simp at h
  rcases ip with _ | ⟨a11, ip⟩
  · simp at h
  simp [isZeros, v4InV6Lead]
  tauto

theorem To4_eq (ip : IP) :
    To4 ip = if ip.length = 4 then some ip
      else if IPv4Mapped ip then some ((ip.drop 12).take 4) else none := by
  unfold To4 IPv4Mapped IPv4len IPv6len
  by_cases h4 : ip.length = 4
  · simp [h4]
  · by_cases h16 : ip.length = 16
    · simp only [h4, h16, if_false, true_and, to4_test_iff ip h16]
    · simp [h4, h16]

theorem isIPv4_iff (ip : IP) : isIPv4 ip = true ↔ FourByteRepresentable ip := by
  unfold isIPv4 FourByteRepresentable
  rw [To4_eq]
  by_cases h4 : ip.length = 4
  · simp [h4, sliceLen, IPv4len]
  · by_cases hm : IPv4Mapped ip
    · have h16 : ip.length = 16 := hm.1
      simp [h4, hm, sliceLen, IPv4len, h16]
    · simp [h4, hm, sliceLen, IPv4len]

theorem isIPv4_iff_To4_isSome (ip : IP) : isIPv4 ip = true ↔ (To4 ip).isSome = true := by
  rw [isIPv4_iff]
  unfold FourByteRepresentable
  rw [To4_eq]
  by_cases h4 : ip.length = 4
  · simp [h4]
  · by_cases hm : IPv4Mapped ip
    · simp [h4, hm]
    · simp [h4, hm]

/-- C8: the family selection in `main` takes the `"ip4:icmp"` branch exactly
when the address is 4-byte-representable (4 bytes long or 16 bytes in
IPv4-mapped form, which is when `To4` is non-nil), takes the
`"ip6:ipv6-icmp"` branch exactly when the address is 16 bytes long and not
IPv4-mapped, the two conditions exclude each other, and for every other length
the network parameter keeps its value. -/
theorem mainSelectNetwork_family (network : String) (ip : IP) :
    (isIPv4 ip = true ↔ FourByteRepresentable ip) ∧
      (isIPv4 ip = true ↔ (To4 ip).isSome = true) ∧
      ((isIPv4 ip = false ∧ isIPv6 ip = true) ↔ (ip.length = 16 ∧ ¬ IPv4Mapped ip)) ∧
      ¬ (FourByteRepresentable ip ∧ (ip.length = 16 ∧ ¬ IPv4Mapped ip)) ∧
      mainSelectNetwork network ip =
        (if FourByteRepresentable ip then "ip4:icmp"
         else if ip.length = 16 ∧ ¬ IPv4Mapped ip then "ip6:ipv6-icmp"
         else network) ∧
      (ip.length ≠ 4 → ip.length ≠ 16 → mainSelectNetwork network ip = network) := by
  have h4 := isIPv4_iff ip
  have hsix : (isIPv4 ip = false ∧ isIPv6 ip = true) ↔ (ip.length = 16 ∧ ¬ IPv4Mapped ip) := by
    rw [← Bool.not_eq_true, h4]
    unfold FourByteRepresentable isIPv6 IPv6len
    constructor
    · rintro ⟨hn, hl⟩
      have hl16 : ip.length = 16 := by simpa using hl
      exact ⟨hl16, fun hm => hn (Or.inr hm)⟩
    · rintro ⟨hl, hm⟩
      refine ⟨?_, by simpa using hl⟩
      rintro (h | h)
      · omega
      · exact hm h
  have hexcl : ¬ (FourByteRepresentable ip ∧ (ip.length = 16 ∧ ¬ IPv4Mapped ip)) := by
    rintro ⟨h | h, hl, hm⟩
    · omega
    · exact hm h
  have hsel : mainSelectNetwork network ip =
      (if FourByteRepresentable ip then "ip4:icmp"
       else if ip.length = 16 ∧ ¬ IPv4Mapped ip then "ip6:ipv6-icmp"
       else network) := by
    unfold mainSelectNetwork
    by_cases hf : FourByteRepresentable ip
    · rw [if_pos (h4.mpr hf), if_pos hf]
    · have hv4 : ¬ isIPv4 ip = true := fun h => hf (h4.mp h)
      rw [if_neg hv4, if_neg hf]
      by_cases h6 : isIPv6 ip = true
      · rw [if_pos h6, if_pos (hsix.mp ⟨by simpa using hv4, h6⟩)]
      · have : ¬ (ip.length = 16 ∧ ¬ IPv4Mapped ip) := fun h => h6 (hsix.mpr h).2
        rw [if_neg h6, if_neg this]
  refine ⟨h4, isIPv4_iff_To4_isSome ip, hsix, hexcl, hsel, ?_⟩
  intro hn4 hn16
  rw [hsel, if_neg, if_neg]
  · exact fun h => hn16 h.1
  · rintro (h | h)
    · exact hn4 h
    · exact hn16 h.1

/-- Witness for C8 at a 3-byte sequence and the user-supplied network `"ip"`:
neither branch is taken and the network stays `"ip"`. -/
theorem mainSelectNetwork_family_witness :
    ([1, 2, 3] : IP).length ≠ 4 ∧ ([1, 2, 3] : IP).length ≠ 16 ∧
      mainSelectNetwork "ip" [1, 2, 3] = "ip" :=
  ⟨by decide, by decide,
    (mainSelectNetwork_family "ip" [1, 2, 3]).2.2.2.2.2 (by decide) (by decide)⟩

/-! ## Counters -/

/-- C3: for every sequence of N probe outcomes (N within the range of Go's
`int`) processed by the loop of `PingN` from the initial globals, the loop
produces its N outputs, the sent count `successful + failed` equals N and
received + lost = N; and when the errors are ones `Ping` returns, `successful`
is the number of probes that completed without error (nil) and `failed` the
number of probes that returned an error. -/
theorem PingN_counts (fmtF : ℚ → String) (probes : List Probe)
    (hlen : probes.length < 9223372036854775808) :
    ∃ st outs, PingN fmtF initStats probes = some (st, outs) ∧
      outs.length = probes.length ∧
      sent st = (probes.length : Int) ∧
      st.successful + st.failed = (probes.length : Int) ∧
      ((∀ p ∈ probes, returnedByPing p.err) →
        st.successful = (probes.countP completedWithoutError : Int) ∧
        st.failed = (probes.countP (fun p => !completedWithoutError p) : Int)) := by
  obtain ⟨outs, hrun, hout⟩ := PingN_init fmtF probes hlen
  obtain ⟨hs, hf⟩ := statsAfter_init_counters probes hlen
  have hsum := countP_add_countP_not probes
  refine ⟨statsAfter initStats probes, outs, hrun, hout, ?_, ?_, ?_⟩
  · unfold sent intAdd
    rw [hs, hf, hsum]
    exact wrapInt_eq_self _ (by omega) (by omega)
  · rw [hs, hf, hsum]
  · intro hret
    have hiff : ∀ p ∈ probes, countedReceived p = completedWithoutError p := by
      intro p hp
      rw [Bool.eq_iff_iff, countedReceived_iff_nil p (hret p hp)]
      unfold completedWithoutError
      cases p.err <;> simp
    have h1 : probes.countP countedReceived = probes.countP completedWithoutError :=
      List.countP_congr fun p hp => by rw [hiff p hp]
    have h2 : probes.countP (fun p => !countedReceived p)
        = probes.countP (fun p => !completedWithoutError p) :=
      List.countP_congr fun p hp => by simp only [hiff p hp]
    rw [hs, hf, h1, h2]
    exact ⟨rfl, rfl⟩

/-- Witness for C3: two successes and one timeout give sent 3, received 2,
lost 1. -/
theorem PingN_counts_witness :
    [okProbe 15, okProbe 25, timeoutProbe 1000].length < 9223372036854775808 ∧
      (∀ p ∈ [okProbe 15, okProbe 25, timeoutProbe 1000], returnedByPing p.err) ∧
      ∃ st outs, PingN (fun _ => "x") initStats
          [okProbe 15, okProbe 25, timeoutProbe 1000] = some (st, outs) ∧
        outs.length = 3 ∧ sent st = 3 ∧ st.successful + st.failed = 3 ∧
        st.successful = 2 ∧ st.failed = 1 := by
  have hret : ∀ p ∈ [okProbe 15, okProbe 25, timeoutProbe 1000], returnedByPing p.err := by
    decide!
  obtain ⟨st, outs, h1, h2, h3, h4, h5⟩ :=
    PingN_counts (fun _ => "x") [okProbe 15, okProbe 25, timeoutProbe 1000] (by decide)
  exact ⟨by decide, hret, st, outs, h1, h2, h3, h4, h5 hret⟩

/-- C10: in every state reached by one or more updates of `PingN` from the
initial globals (their number within the range of Go's `int`), the divisor
`successful + failed` is at least 1, so the integer division for the per-probe
loss figure is defined, and its value is 1 when `successful == 0` and 0
otherwise. -/
theorem lossFigure_after_update (fmtF : ℚ → String) (probes : List Probe)
    (hne : probes ≠ []) (hlen : probes.length < 9223372036854775808) :
    ∃ st outs, PingN fmtF initStats probes = some (st, outs) ∧
      1 ≤ intAdd st.successful st.failed ∧
      intDiv st.failed (intAdd st.successful st.failed)
        = some (if st.successful = 0 then 1 else 0) := by
  obtain ⟨outs, hrun, _⟩ := PingN_init fmtF probes hlen
  obtain ⟨hs, hf⟩ := statsAfter_init_counters probes hlen
  have hsum := countP_add_countP_not probes
  have hpos : 0 < probes.length := List.length_pos.mpr hne
  have h0 : 0 ≤ (statsAfter initStats probes).successful := by rw [hs]; omega
  have h1 : 0 ≤ (statsAfter initStats probes).failed := by rw [hf]; omega
  obtain ⟨hadd, hloss⟩ := lossFigure_of_counters (statsAfter initStats probes) h0 h1
    (by rw [hs, hf]; omega) (by rw [hs, hf]; omega)
  refine ⟨statsAfter initStats probes, outs, hrun, ?_, hloss⟩
  rw [hadd, hs, hf]
  omega

/-- Witness for C10: after one timeout the figure is 1. -/
theorem lossFigure_after_update_witness :
    [timeoutProbe 1000] ≠ [] ∧ [timeoutProbe 1000].length < 9223372036854775808 ∧
      ∃ st outs, PingN (fun _ => "x") initStats [timeoutProbe 1000] = some (st, outs) ∧
        1 ≤ intAdd st.successful st.failed ∧
        intDiv st.failed (intAdd st.successful st.failed)
          = some (if st.successful = 0 then 1 else 0) :=
  ⟨by decide, by decide,
    lossFigure_after_update (fun _ => "x") [timeoutProbe 1000] (by decide) (by decide)⟩

/-! ## Running mean -/

theorem statsAfter_avg (probes : List Probe) (hne : probes ≠ [])
    (hlen : probes.length < 9223372036854775808) :
    (statsAfter initStats probes).avgRTT = (latencies probes).sum / (probes.length : ℚ) := by
  have hpos : 0 < probes.length := List.length_pos.mpr hne
  have hq : (probes.length : ℚ) ≠ 0 := by positivity
  rw [eq_div_iff hq]
  exact statsAfter_avg_mul probes hlen

/-- C4: for every non-empty sequence of probe outcomes, successful or failed
(their number within the range of Go's `int`), with latencies as exact
rationals, the loop of `PingN` started from the initial globals ends with
`avgRTT` equal to the arithmetic mean of all recorded latencies, and every
permutation of the sequence ends with the same `avgRTT`. -/
theorem avgRTT_eq_mean (fmtF : ℚ → String) (probes : List Probe)
    (hne : probes ≠ []) (hlen : probes.length < 9223372036854775808) :
    (PingN fmtF initStats probes).map (fun r => r.1.avgRTT)
        = some ((latencies probes).sum / (probes.length : ℚ)) ∧
      ∀ probes2 : List Probe, List.Perm probes2 probes →
        (PingN fmtF initStats probes2).map (fun r => r.1.avgRTT)
          = (PingN fmtF initStats probes).map (fun r => r.1.avgRTT) := by
  have key : ∀ l : List Probe, l ≠ [] → l.length < 9223372036854775808 →
      (PingN fmtF initStats l).map (fun r => r.1.avgRTT)
        = some ((latencies l).sum / (l.length : ℚ)) := by
    intro l hl hb
    obtain ⟨outs, hrun, _⟩ := PingN_init fmtF l hb
    rw [hrun, Option.map_some', statsAfter_avg l hl hb]
  refine ⟨key probes hne hlen, ?_⟩
  intro probes2 hperm
  have hl2 : probes2.length = probes.length := hperm.length_eq
  have hne2 : probes2 ≠ [] := by
    intro h
    rw [h] at hperm
    exact hne (List.nil_perm.mp hperm)
  have hsum : (latencies probes2).sum = (latencies probes).sum :=
    (hperm.map Probe.latency).sum_eq
  rw [key probes hne hlen, key probes2 hne2 (by omega), hsum, hl2]

/-- Witness for C4: five successful probes with latencies 10, 20, 30, 40, 50
end with mean 30. -/
theorem avgRTT_eq_mean_witness :
    [okProbe 10, okProbe 20, okProbe 30, okProbe 40, okProbe 50] ≠ [] ∧
      [okProbe 10, okProbe 20, okProbe 30, okProbe 40, okProbe 50].length
        < 9223372036854775808 ∧
      (PingN (fun _ => "x") initStats
          [okProbe 10, okProbe 20, okProbe 30, okProbe 40, okProbe 50]).map
        (fun r => r.1.avgRTT) = some 30 :=
  ⟨by decide, by decide,
    (avgRTT_eq_mean (fun _ => "x")
      [okProbe 10, okProbe 20, okProbe 30, okProbe 40, okProbe 50]
      (by decide) (by decide)).1.trans (by norm_num [latencies, okProbe])⟩

/-! ## Minimum and maximum -/

theorem pingUpdate_minRTT (s : Stats) (p : Probe) :
    (pingUpdate s p).minRTT = min s.minRTT p.latency := by
  have hc : (countProbe s p.err).minRTT = s.minRTT := by
    unfold countProbe; split <;> rfl
  unfold pingUpdate trackAvg trackMinMax
  by_cases h : p.latency < (countProbe s p.err).minRTT
  · rw [if_pos h, min_eq_right (hc ▸ h.le)]
  · rw [if_neg h, min_eq_left (hc ▸ not_lt.mp h)]
    split <;> exact hc

/-- The `minRTT` half of the bounds does hold: `minRTT` is below every
recorded latency. -/
theorem statsAfter_minRTT_le (probes : List Probe) :
    ∀ s : Stats, (statsAfter s probes).minRTT ≤ s.minRTT ∧
      ∀ L ∈ latencies probes, (statsAfter s probes).minRTT ≤ L := by
  induction probes with
  | nil => intro s; simp [statsAfter, latencies]
  | cons p ps ih =>
    intro s
    have hstep : statsAfter s (p :: ps) = statsAfter (pingUpdate s p) ps := rfl
    obtain ⟨h1, h2⟩ := ih (pingUpdate s p)
    rw [pingUpdate_minRTT] at h1
    rw [hstep]
    refine ⟨h1.trans (min_le_left _ _), ?_⟩
    intro L hL
    simp only [latencies, List.map_cons, List.mem_cons] at hL
    rcases hL with rfl | hL
    · exact h1.trans (min_le_right _ _)
    · exact h2 L hL

/-- C1 (evaluation of the code): after the first probe, with latency 5 ms,
`minRTT` is 5 but `maxRTT` still holds its initial value `float64(MinInt64)`,
so the recorded latency is above `maxRTT` and `maxRTT` is not
`max(old maxRTT, latency)`; after latencies 30, 20, 10 it is still the initial
value. -/
theorem maxRTT_skipped_when_minRTT_updates :
    (PingN (fun _ => "5.000000") initStats [okProbe 5]).map
        (fun r => (r.1.minRTT, r.1.maxRTT)) = some (5, -9223372036854775808) ∧
      (statsAfter initStats [okProbe 5]).minRTT = 5 ∧
      (statsAfter initStats [okProbe 5]).maxRTT = -9223372036854775808 ∧
      ¬ ((5 : ℚ) ≤ (statsAfter initStats [okProbe 5]).maxRTT) ∧
      (pingUpdate initStats (okProbe 5)).maxRTT ≠ max initStats.maxRTT 5 ∧
      (statsAfter initStats [okProbe 30, okProbe 20, okProbe 10]).minRTT = 10 ∧
      (statsAfter initStats [okProbe 30, okProbe 20, okProbe 10]).maxRTT
        = -9223372036854775808 := by
  decide!

/-- C6 (evaluation of the code): after the first probe, with latency 5 ms,
`avgRTT` is 5 and `maxRTT` is `float64(MinInt64)`, so `avgRTT <= maxRTT`
fails; after latencies 50, 40, 30, 20, 10 the mean is 30 and `maxRTT` is still
`float64(MinInt64)`. -/
theorem avgRTT_above_maxRTT :
    (PingN (fun _ => "5.000000") initStats [okProbe 5]).map
        (fun r => (r.1.minRTT, r.1.avgRTT, r.1.maxRTT))
        = some (5, 5, -9223372036854775808) ∧
      (statsAfter initStats [okProbe 5]).avgRTT = 5 ∧
      ¬ ((statsAfter initStats [okProbe 5]).avgRTT
          ≤ (statsAfter initStats [okProbe 5]).maxRTT) ∧
      (statsAfter initStats
          [okProbe 50, okProbe 40, okProbe 30, okProbe 20, okProbe 10]).avgRTT = 30 ∧
      (statsAfter initStats
          [okProbe 50, okProbe 40, okProbe 30, okProbe 20, okProbe 10]).maxRTT
        = -9223372036854775808 := by
  decide!

/-! ## Loss figure -/

/-- C2 (evaluation of the code): after two successes and one failure the
figure printed before `% loss`, in the per-probe line and in the final report,
is 0, while `round(lost * 100 / sent)` is 33. -/
theorem lossFigure_two_ok_one_failed :
    lossFigure (statsAfter initStats [okProbe 15, okProbe 25, timeoutProbe 1000]) = some 0 ∧
      specLossPercent 1 3 = 33 ∧
      pingOutput (statsAfter initStats [okProbe 15, okProbe 25, timeoutProbe 1000])
          "1000.000000"
        = some "Packets: sent = 3, recieved = 2, Lost = 1(0% loss), Latency: 1000.000000 ms" ∧
      (statistics (fun _ => "x")
          (statsAfter initStats [okProbe 15, okProbe 25, timeoutProbe 1000])).lines[1]?
        = some "Packets: sent = 3, recieved = 2, Lost = 1(0% loss)," := by
  refine ⟨by decide!, ?_, by decide!, by decide!⟩
  unfold specLossPercent
  rw [round_eq, Int.floor_eq_iff]
  norm_num

/-- C5 (evaluation of the code): with `successful = 0` and `failed = 0` the
division `failed/(successful + failed)` has divisor zero, and `statistics`
panics after printing only its first line. -/
theorem statistics_before_first_probe (fmtF : ℚ → String) :
    intAdd initStats.successful initStats.failed = 0 ∧
      lossFigure initStats = none ∧
      statistics fmtF initStats = { lines := ["Statistics:"], panicked := true } := by
  refine ⟨by decide, by decide, ?_⟩
  have h : lossFigure initStats = none := by decide
  unfold statistics
  rw [h]

/-! ## Classification of the result of `Ping` -/

theorem formatResult_eq_success_iff (err : Option GoError) :
    formatResult err = "success" ↔
      err = none ∨ err = some (GoError.opError "success")
        ∨ err = some (GoError.other "success") := by
  rcases err with _ | ⟨m⟩ | ⟨m⟩ <;> simp [formatResult]

/-- Without the assumption on the errors of `Ping` the test of `PingN` is not
the nil test: a hand-built `*net.OpError` whose wrapped error reads `success`
falls outside `returnedByPing` and would be counted as received. -/
theorem describesFailure_needed :
    ¬ returnedByPing (some (GoError.opError "success")) ∧
      formatResult (some (GoError.opError "success")) = "success" ∧
      (pingUpdate initStats
          { err := some (GoError.opError "success"), latency := 5 }).successful = 1 := by
  decide!

theorem intAdd_one_ne (x : Int) : intAdd x 1 ≠ x := by
  unfold intAdd wrapInt; omega

/-- C7: for every error value returned by `Ping`, `formatResult` yields
`"success"` exactly when the error is nil and the update of `PingN` counts the
probe as received (`successful` incremented, `failed` untouched) exactly when
the error is nil; for every non-nil error the probe is counted as lost
(`failed` incremented, `successful` untouched), and `formatResult` returns the
wrapped error's message for a `*net.OpError` and the error's own message
otherwise. -/
theorem received_iff_nil (s : Stats) (p : Probe) (h : returnedByPing p.err) :
    (formatResult p.err = "success" ↔ p.err = none) ∧
      (((pingUpdate s p).successful = intAdd s.successful 1 ∧
          (pingUpdate s p).failed = s.failed) ↔ p.err = none) ∧
      (((pingUpdate s p).successful = s.successful ∧
          (pingUpdate s p).failed = intAdd s.failed 1) ↔ p.err ≠ none) ∧
      (∀ innerMsg, p.err = some (GoError.opError innerMsg) →
        formatResult p.err = innerMsg) ∧
      (∀ msg, p.err = some (GoError.other msg) → formatResult p.err = msg) := by
  have hiff : formatResult p.err = "success" ↔ p.err = none := by
    have := countedReceived_iff_nil p h
    simpa [countedReceived] using this
  rw [pingUpdate_successful, pingUpdate_failed]
  refine ⟨hiff, ?_, ?_, ?_, ?_⟩
  · unfold countProbe
    by_cases hs : formatResult p.err = "success"
    · rw [if_pos hs]
      exact ⟨fun _ => hiff.mp hs, fun _ => ⟨rfl, rfl⟩⟩
    · rw [if_neg hs]
      constructor
      · rintro ⟨h1, _⟩
        exact absurd h1.symm (intAdd_one_ne _)
      · intro hn
        exact absurd (hiff.mpr hn) hs
  · unfold countProbe
    by_cases hs : formatResult p.err = "success"
    · rw [if_pos hs]
      constructor
      · rintro ⟨h1, _⟩
        exact absurd h1 (intAdd_one_ne _)
      · intro hn
        exact absurd (hiff.mp hs) hn
    · rw [if_neg hs]
      exact ⟨fun _ hn => hs (hiff.mpr hn), fun _ => ⟨rfl, rfl⟩⟩
  · intro innerMsg he
    rw [he]; rfl
  · intro msg he
    rw [he]; rfl

/-- Witness for C7: a dial timeout from the initial counters is counted as
lost and formatted as the wrapped error's message. -/
theorem received_iff_nil_witness :
    returnedByPing (timeoutProbe 1000).err ∧
      (timeoutProbe 1000).err ≠ none ∧
      (pingUpdate initStats (timeoutProbe 1000)).successful = 0 ∧
      (pingUpdate initStats (timeoutProbe 1000)).failed = 1 ∧
      formatResult (timeoutProbe 1000).err = "i/o timeout" := by
  have hret : returnedByPing (timeoutProbe 1000).err := by decide!
  have hne : (timeoutProbe 1000).err ≠ none := by decide
  obtain ⟨_, _, hlost, hop, _⟩ := received_iff_nil initStats (timeoutProbe 1000) hret
  obtain ⟨h1, h2⟩ := hlost.mpr hne
  exact ⟨hret, hne, h1, h2, hop "i/o timeout" rfl⟩

/-! ## The per-probe line -/

end EasyPing

